import Mathlib

/-!
Shallow embedding of the orchestration kernel of the `bicycle` repository:
the message broker (`daemon/broker`), the daemon lifecycle state machine
(`daemon/daemon.go`), the requirement checker (`plugin/requirements.go`)
and the command registry/router (`cmd` package).

Go methods that mutate their receiver are embedded as pure functions
returning the new state together with an optional error string
(`some msg` = the method returned that error, `none` = nil error).
Concurrency plumbing (mutexes, contexts, wait groups, goroutines) has no
functional content in the properties below and is not modelled; the
broker's per-subscriber delivery race (channel send vs. timeout) is
modelled by an oracle `slow : String → Bool` saying whether the send to a
given subscriber's channel fails to complete before the publish timeout.
-/

namespace Bicycle

/-! ### Go string helpers (strings.TrimSpace / TrimPrefix "/" / Fields) -/

/-- Go's `unicode.IsSpace` restricted to the Latin-1 characters it accepts:
`\t`, `\n`, `\v`, `\f`, `\r`, space, NEL (U+0085) and NBSP (U+00A0). -/
def goIsSpace (c : Char) : Bool :=
  c.toNat = 9 || c.toNat = 10 || c.toNat = 11 || c.toNat = 12 ||
  c.toNat = 13 || c.toNat = 32 || c.toNat = 0x85 || c.toNat = 0xA0

/-- Leading-whitespace trim, on the character list of a Go string. -/
def trimLeft (l : List Char) : List Char := l.dropWhile goIsSpace

/-- Trailing-whitespace trim, on the character list of a Go string. -/
def trimRight (l : List Char) : List Char :=
  (l.reverse.dropWhile goIsSpace).reverse

/-- `strings.TrimSpace`, on the character list of a Go string. -/
def goTrimSpace (l : List Char) : List Char := trimRight (trimLeft l)

/-- `strings.TrimPrefix(input, "/")`: removes one leading slash if present. -/
def stripSlash (l : List Char) : List Char :=
  match l with
  | c :: rest => if c = '/' then rest else l
  | [] => l

/-- Accumulator-style worker for `strings.Fields`: `acc` holds the current
word reversed. -/
def fieldsAux : List Char → List Char → List (List Char)
  | [], acc => if acc = [] then [] else [acc.reverse]
  | c :: cs, acc =>
    if goIsSpace c then
      if acc = [] then fieldsAux cs [] else acc.reverse :: fieldsAux cs []
    else fieldsAux cs (c :: acc)

/-- `strings.Fields`: split on runs of whitespace. -/
def goFields (l : List Char) : List (List Char) := fieldsAux l []

/-! ### Broker data model (`daemon` package, broker file) -/

/-- `plugin.Message`.  The payload is `interface{}` in Go; the broker never
inspects it, so it is modelled as an opaque string. -/
structure Message where
  topic : String
  payload : String
  source : String
  deriving DecidableEq

/-- `Subscription` as held by the broker: subscriber id, topic filter and
buffer capacity.  The Go channel itself is modelled by the delivery oracle
passed to `publish`. -/
structure Subscription where
  id : String
  topics : List String
  bufSize : Nat
  deriving DecidableEq

/-- The receive end returned by `Subscribe` (`<-chan plugin.Message`).
Only its closed-ness is observable in the modelled properties. -/
structure RecvHandle where
  isClosed : Bool
  deriving DecidableEq

/-- `Broker`: subscription table, closed flag, and the per-delivery
publish timeout (seconds, as configured; its numeric value is not
otherwise interpreted by the model). -/
structure Broker where
  subscriptions : List Subscription
  closed : Bool
  publishTimeout : Nat
  deriving DecidableEq

/-- `NewBroker()`. -/
def Broker.new : Broker :=
  { subscriptions := [], closed := false, publishTimeout := 5 }

/-- `Subscription.wantsTopic`: empty topic list matches everything,
otherwise look for the literal topic or the `*` wildcard. -/
def Subscription.wantsTopic (s : Subscription) (topic : String) : Bool :=
  if s.topics.isEmpty then true
  else s.topics.any (fun t => t == topic || t == "*")

/-- `Broker.Subscribe`: on a closed broker, returns a fresh closed channel
and changes nothing; otherwise replaces any subscription with the same id
(closing its channel) and installs the new one. -/
def Broker.subscribe (b : Broker) (id : String) (bufSize : Nat)
    (topics : List String) : RecvHandle × Broker :=
  if b.closed then ({ isClosed := true }, b)
  else
    let rest := b.subscriptions.filter (fun s => s.id != id)
    let sub : Subscription := { id := id, topics := topics, bufSize := bufSize }
    ({ isClosed := false }, { b with subscriptions := rest ++ [sub] })

/-- `Broker.publishToSubscriber`: the select races the channel send
against the timeout; `slow sub.id` says the send does not complete in
time, yielding the slow-consumer error.  (Caller context cancellation is
a real-time event outside this deterministic model.) -/
def Broker.publishToSubscriber (slow : String → Bool) (sub : Subscription) :
    Option String :=
  if slow sub.id then
    some ("timeout publishing to " ++ sub.id ++ " (slow consumer)")
  else none

/-- The matched subscriptions of a publish: those whose filter wants the
topic, in table order. -/
def Broker.matchingSubs (b : Broker) (topic : String) : List Subscription :=
  b.subscriptions.filter (fun s => s.wantsTopic topic)

/-- `Broker.Publish`: error on a closed broker; success with zero
deliveries when nothing matches; otherwise one delivery attempt per
matched subscriber, and the `errgroup.Wait` result — the first delivery
error, if any — wrapped as `publish failed: ...`. -/
def Broker.publish (slow : String → Bool) (b : Broker) (msg : Message) :
    Option String :=
  if b.closed then some "broker is closed"
  else
    let targets := b.matchingSubs msg.topic
    if targets.isEmpty then none
    else
      match targets.findSome? (Broker.publishToSubscriber slow) with
      | some e => some ("publish failed: " ++ e)
      | none => none

/-- `Broker.Unsubscribe`: drop the subscription (closing its channel);
no-op on unknown ids. -/
def Broker.unsubscribe (b : Broker) (id : String) : Broker :=
  { b with subscriptions := b.subscriptions.filter (fun s => s.id != id) }

/-- `Broker.Close`: idempotent; marks closed and clears the table. -/
def Broker.close (b : Broker) : Broker :=
  if b.closed then b else { b with closed := true, subscriptions := [] }

/-- `Broker.SetPublishTimeout`. -/
def Broker.setPublishTimeout (b : Broker) (timeout : Nat) : Broker :=
  { b with publishTimeout := timeout }

/-! ### Plugin model (`plugin` package) -/

/-- `plugin.Mode` is a string type (`"daemon"`, `"interactive"`). -/
abbrev Mode := String

/-- `plugin.ExtensionType`. -/
inductive ExtensionType where
  | command
  | executor
  | state
  | interaction
  deriving DecidableEq

/-- A `plugin.Extension` as seen by the daemon: its declared type and
name, and whether the Go type assertion `ext.(plugin.Executor)` succeeds
for it. -/
structure Extension where
  type : ExtensionType
  name : String
  isExecutor : Bool
  deriving DecidableEq

/-- `plugin.Task`. -/
structure Task where
  id : String
  tType : String
  input : String
  deriving DecidableEq

/-- A plugin instance as the daemon observes it through the `Plugin`
contract: its name, the outcome of `CheckRequirements` on the startup
context (`true` = nil error), the outcome of `Start` (`true` = nil
error), and its extension list. -/
structure PluginM where
  name : String
  checkOk : Bool
  startOk : Bool
  extensions : List Extension
  deriving DecidableEq

/-! ### Requirement checker (`plugin/requirements.go`) -/

/-- `plugin.Requirement`: name, description, required flag, and the
outcome of `CheckFunc` on the context of the current `Check` call
(`some e` = the check returned error `e`). -/
structure Requirement where
  name : String
  description : String
  checkResult : Option String
  required : Bool
  deriving DecidableEq

/-- The `errors` slice collected by `RequirementChecker.Check`: one
`name: message` entry per failed required check, in registration order. -/
def requiredFailures (reqs : List Requirement) : List String :=
  reqs.filterMap (fun r =>
    match r.checkResult with
    | some e => if r.required then some (r.name ++ ": " ++ e) else none
    | none => none)

/-- `RequirementChecker.Check`: runs every check (collecting required
failures and optional warnings), and errors iff some required check
failed, joining all required failures with `"; "`. -/
def RequirementChecker.check (reqs : List Requirement) : Option String :=
  if reqs.isEmpty then none
  else
    let errors := requiredFailures reqs
    if errors.isEmpty then none
    else some ("requirement check(s) failed: " ++ String.intercalate "; " errors)

/-! ### Command registry and router (`cmd` package) -/

/-- `plugin.CommandResult` (the opaque `Data` field is dropped: no
modelled operation inspects it). -/
structure CommandResult where
  output : String
  broadcast : Bool
  deriving DecidableEq

/-- The values the `cmd` package reads from `context.Context`:
`ctx.Value("mode")` either holds a known `plugin.Mode` or not. -/
structure Ctx where
  mode : Option Mode
  deriving DecidableEq

/-- `plugin.Command`: name, metadata, handler, mode restriction, hidden
flag. -/
structure Command where
  name : String
  description : String
  usage : String
  handler : Ctx → List String → Except String CommandResult
  modes : List Mode
  hidden : Bool

/-- `containsMode` helper of the `cmd` package. -/
def containsMode (modes : List Mode) (mode : Mode) : Bool :=
  modes.any (fun m => m == mode)

/-- A `CommandRegistry`'s command table, in registration order (the Go
map is keyed by unique name; `find?` is the lookup). -/
abbrev CommandRegistry := List Command

/-- `CommandRegistry.Execute`: unknown names error; a known caller mode
together with a non-empty mode restriction not containing it errors;
otherwise the handler runs synchronously on the args. -/
def CommandRegistry.execute (reg : CommandRegistry) (ctx : Ctx)
    (name : String) (args : List String) : Except String CommandResult :=
  match reg.find? (fun c => c.name == name) with
  | none => .error ("unknown command: " ++ name)
  | some cmd =>
    match ctx.mode with
    | some mode =>
      if 0 < cmd.modes.length && !containsMode cmd.modes mode then
        .error ("command /" ++ name ++ " not available in " ++ mode ++ " mode")
      else cmd.handler ctx args
    | none => cmd.handler ctx args

/-- `Router.parseCommand`: strip one optional leading `/`, split on
whitespace into name and args. -/
def Router.parseCommand (input : List Char) : List Char × List (List Char) :=
  match goFields (stripSlash input) with
  | [] => ([], [])
  | t :: ts => (t, ts)

/-- The body of `Router.Route` after the trim: empty input errors; parse
into name and args; an empty name errors; otherwise dispatch through the
registry. -/
def Router.routeList (reg : CommandRegistry) (ctx : Ctx) (inp : List Char) :
    Except String CommandResult :=
  if inp = [] then .error "empty command"
  else if (Router.parseCommand inp).1 = [] then .error "invalid command format"
  else CommandRegistry.execute reg ctx (String.mk (Router.parseCommand inp).1)
    ((Router.parseCommand inp).2.map String.mk)

/-- `Router.Route`: trims the input and runs `routeList` on it. -/
def Router.route (reg : CommandRegistry) (ctx : Ctx) (input : String) :
    Except String CommandResult :=
  Router.routeList reg ctx (goTrimSpace input.data)

/-! ### Daemon (`daemon/daemon.go`) -/

/-- `daemon.State`. -/
inductive State where
  | idle
  | working
  | stopped
  deriving DecidableEq

/-- The string value of a `daemon.State` (it is a Go string type). -/
def State.text : State → String
  | .idle => "idle"
  | .working => "working"
  | .stopped => "stopped"

/-- The slice of `config.Config` the daemon reads: execution mode, the
daemon publish timeout (seconds), and the per-plugin enabled flags
(plugins absent from the list are enabled by default, as in
`Config.IsPluginEnabled`). -/
structure Config where
  mode : Mode
  publishTimeout : Nat
  plugins : List (String × Bool)
  deriving DecidableEq

/-- `Config.IsPluginEnabled`: enabled unless explicitly configured off. -/
def Config.isPluginEnabled (c : Config) (name : String) : Bool :=
  match c.plugins.find? (fun e => e.1 == name) with
  | none => true
  | some e => e.2

/-- `daemon.Daemon`: state, config, broker, active plugin set, the single
executor slot and the single task slot.  The context/cancel/waitgroup
fields are concurrency plumbing with no functional content here. -/
structure Daemon where
  state : State
  config : Config
  broker : Broker
  plugins : List PluginM
  executor : Option Extension
  currentTask : Option Task
  deriving DecidableEq

/-- `daemon.New`. -/
def Daemon.new (cfg : Config) : Daemon :=
  { state := .idle, config := cfg, broker := Broker.new,
    plugins := [], executor := none, currentTask := none }

/-- `Daemon.AddPlugin`: silently skip disabled plugins, reject duplicate
names, otherwise record the plugin. -/
def Daemon.addPlugin (d : Daemon) (p : PluginM) : Daemon × Option String :=
  let name := p.name
  if !d.config.isPluginEnabled name then (d, none)
  else if d.plugins.any (fun q => q.name == name) then
    (d, some ("plugin " ++ name ++ " already added"))
  else ({ d with plugins := d.plugins ++ [p] }, none)

/-- The executor-scan of `Daemon.Start`'s plugin loop body: each
extension of executor type whose `Executor` assertion succeeds overwrites
the slot. -/
def scanExecutor (exec : Option Extension) (exts : List Extension) :
    Option Extension :=
  exts.foldl
    (fun acc ext =>
      if ext.type == ExtensionType.executor && ext.isExecutor then some ext
      else acc)
    exec

/-- The plugin loop of `Daemon.Start`: plugins whose requirement check or
`Start` fails are dropped from the active set; started plugins get their
executor extensions scanned into the slot in discovery order. -/
def startPlugins (exec : Option Extension) :
    List PluginM → List PluginM × Option Extension
  | [] => ([], exec)
  | p :: rest =>
    if p.checkOk then
      if p.startOk then
        let exec2 := scanExecutor exec p.extensions
        let r := startPlugins exec2 rest
        (p :: r.1, r.2)
      else startPlugins exec rest
    else startPlugins exec rest

/-- `Daemon.Start`: errors when the state is not `idle`; otherwise sets
the broker publish timeout from config and runs the plugin loop.  Note
that `Start` itself never changes `state`. -/
def Daemon.start (d : Daemon) : Daemon × Option String :=
  if d.state != State.idle then (d, some "daemon already started")
  else
    let broker := d.broker.setPublishTimeout d.config.publishTimeout
    let r := startPlugins d.executor d.plugins
    ({ d with broker := broker, plugins := r.1, executor := r.2 }, none)

/-- `Daemon.Stop`: idempotent no-op once `stopped`; otherwise stops every
plugin (errors logged only), closes the broker, waits for background
work, and transitions to `stopped`. -/
def Daemon.stop (d : Daemon) : Daemon × Option String :=
  if d.state == State.stopped then (d, none)
  else ({ d with broker := d.broker.close, state := State.stopped }, none)

/-- `Daemon.Reset`: errors unless `working`; otherwise requests executor
cancellation when an executor and a task exist — its outcome `cancelErr`
(`some e` = `CancelTask` returned error `e`) is only logged — and clears
the task and returns to `idle`. -/
def Daemon.reset (cancelErr : Option String) (d : Daemon) :
    Daemon × Option String :=
  if d.state != State.working then (d, some "daemon is not working")
  else ({ d with currentTask := none, state := State.idle }, none)

/-- `Daemon.ExecuteTask` (the synchronous admission part): rejected
unless `idle`; rejected without an executor; otherwise the task is
recorded and the state becomes `working` (the executor then runs in a
background goroutine). -/
def Daemon.executeTask (d : Daemon) (task : Task) : Daemon × Option String :=
  if d.state != State.idle then
    (d, some ("daemon is not idle (current state: " ++ d.state.text ++ ")"))
  else
    match d.executor with
    | none => (d, some "no executor available")
    | some _ => ({ d with currentTask := some task, state := State.working }, none)

/-! ### Concrete sample values used by witness theorems -/

/-- A sample configuration: daemon mode, 5 second publish timeout, no
plugin explicitly configured. -/
def cfg0 : Config := { mode := "daemon", publishTimeout := 5, plugins := [] }

/-- A sample plugin that passes its requirement check and starts. -/
def p0 : PluginM :=
  { name := "state", checkOk := true, startOk := true, extensions := [] }

/-- A daemon with `p0` added, before `Start`. -/
def d0 : Daemon := ((Daemon.new cfg0).addPlugin p0).1

/-- A sample task. -/
def task0 : Task := { id := "t1", tType := "chat", input := "hi" }

/-- A sample executor extension (the `Executor` assertion succeeds). -/
def execExt : Extension :=
  { type := .executor, name := "llm", isExecutor := true }

/-- A second executor extension, discovered after `execExt`. -/
def execExt2 : Extension :=
  { type := .executor, name := "llm2", isExecutor := true }

/-- A plugin providing both executor extensions, in that order. -/
def pExec : PluginM :=
  { name := "llm", checkOk := true, startOk := true,
    extensions := [execExt, execExt2] }

/-- The daemon with `pExec` added, before `Start`. -/
def dPre : Daemon := ((Daemon.new cfg0).addPlugin pExec).1

/-- The started daemon: it holds the last-discovered executor
(`execExt2`) and its state is `idle`. -/
def dE : Daemon := (dPre.start).1

/-- A sample requirement list: required `a` fails, optional `b` fails,
required `c` fails, required `d` passes. -/
def reqs1 : List Requirement :=
  [ { name := "a", description := "first", checkResult := some "boom",
      required := true },
    { name := "b", description := "second", checkResult := some "warn",
      required := false },
    { name := "c", description := "third", checkResult := some "bad",
      required := true },
    { name := "d", description := "fourth", checkResult := none,
      required := true } ]

/-- The daemon `dE` after accepting `task0`; its state is `working`. -/
def dW : Daemon := (dE.executeTask task0).1

/-- A broker with a single subscriber `s1` (buffer 0, topic `chat`). -/
def b0 : Broker := (Broker.new.subscribe "s1" 0 ["chat"]).2

/-- The subscription the broker holds for `s1`. -/
def s1sub : Subscription := { id := "s1", topics := ["chat"], bufSize := 0 }

/-- A sample chat message. -/
def msg0 : Message := { topic := "chat", payload := "hello", source := "test" }

/-- The delivery oracle in which exactly subscriber `s1` is slow. -/
def slow1 : String → Bool := fun i => i == "s1"

/-- A sample handler echoing its arguments. -/
def okHandler : Ctx → List String → Except String CommandResult :=
  fun _ args => .ok { output := String.intercalate "," args, broadcast := false }

/-- A sample command available in both modes. -/
def statusCmd : Command :=
  { name := "status", description := "Show daemon status", usage := "",
    handler := okHandler, modes := ["daemon", "interactive"], hidden := false }

/-- A sample command restricted to interactive mode. -/
def soloCmd : Command :=
  { name := "solo", description := "Interactive only", usage := "",
    handler := okHandler, modes := ["interactive"], hidden := false }

/-- A sample command registry. -/
def reg1 : CommandRegistry := [statusCmd, soloCmd]

/-- A context carrying mode `daemon`. -/
def ctxD : Ctx := { mode := some "daemon" }

/-- A context carrying mode `interactive`. -/
def ctxI : Ctx := { mode := some "interactive" }

/-- The predicate of the executor scan: an extension of executor type
whose `Executor` type assertion succeeds. -/
def isExecExt (x : Extension) : Bool :=
  x.type == ExtensionType.executor && x.isExecutor

/-- The plugins that survive `Start`'s loop: requirement check and plugin
`Start` both succeeded. -/
def startedPlugins (ps : List PluginM) : List PluginM :=
  ps.filter (fun p => p.checkOk && p.startOk)

/-- The executor extensions a started plugin contributes, in declaration
order. -/
def executorExts (p : PluginM) : List Extension :=
  p.extensions.filter isExecExt

/-- All executor extensions discovered during startup, in discovery
order. -/
def discovered (ps : List PluginM) : List Extension :=
  (startedPlugins ps).flatMap executorExts

/-! ### Claim theorems -/

/-- Claim C5: a subscription matches a topic exactly when its filter is
empty, contains the literal topic, or contains the `*` wildcard; a filter
containing neither never matches. -/
theorem C5_subscription_topic_matching (s : Subscription) (topic : String) :
    s.wantsTopic topic = true ↔
      (s.topics = [] ∨ topic ∈ s.topics ∨ "*" ∈ s.topics) := by
  by_cases h : s.topics = []
  · simp [Subscription.wantsTopic, h]
  · have hne : s.topics.isEmpty = false := by simpa [List.isEmpty_iff] using h
    simp only [Subscription.wantsTopic, hne, Bool.false_eq_true, if_false,
      List.any_eq_true, Bool.or_eq_true, beq_iff_eq]
    constructor
    · rintro ⟨t, ht, rfl | rfl⟩
      · exact Or.inr (Or.inl ht)
      · exact Or.inr (Or.inr ht)
    · rintro (hnil | htop | hstar)
      · exact absurd hnil h
      · exact ⟨topic, htop, Or.inl rfl⟩
      · exact ⟨"*", hstar, Or.inr rfl⟩

/-- Claim C10: publishing on a closed broker errors with
`broker is closed` before any delivery is attempted (the result does not
depend on the subscribers or the delivery oracle), whereas subscribing on
a closed broker silently yields a pre-closed handle and leaves the broker
unchanged. -/
theorem C10_closed_broker_publish_vs_subscribe (b : Broker)
    (slow : String → Bool) (msg : Message) (id : String) (buf : Nat)
    (topics : List String) (h : b.closed = true) :
    Broker.publish slow b msg = some "broker is closed" ∧
    b.subscribe id buf topics = ({ isClosed := true }, b) := by
  constructor
  · simp [Broker.publish, h]
  · simp [Broker.subscribe, h]

/-- Witness for C10 at a concrete closed broker. -/
theorem C10_witness :
    Broker.publish slow1 b0.close msg0 = some "broker is closed" ∧
    b0.close.subscribe "s2" 0 [] = ({ isClosed := true }, b0.close) :=
  C10_closed_broker_publish_vs_subscribe b0.close slow1 msg0 "s2" 0 [] rfl

/-- Claim C3: `Reset` errors exactly when the daemon is not `working`;
from `working` it always clears the task and returns to `idle`,
whatever the executor's `CancelTask` returned (the outcome `cancelErr` is
universally quantified and never propagated). -/
theorem C3_reset_behavior (d : Daemon) (cancelErr : Option String) :
    ((d.reset cancelErr).2.isSome ↔ d.state ≠ State.working) ∧
    (d.state = State.working →
        d.reset cancelErr =
          ({ d with currentTask := none, state := State.idle }, none)) ∧
    (d.state ≠ State.working →
        d.reset cancelErr = (d, some "daemon is not working")) := by
  cases hd : d.state <;> simp [Daemon.reset, hd]

/-- Witness for C3: resetting an idle daemon fails; resetting a working
daemon returns to idle and clears the task, also when `CancelTask`
errored. -/
theorem C3_witness :
    (d0.reset none = (d0, some "daemon is not working")) ∧
    (dW.reset (some "cancel boom") =
      ({ dW with currentTask := none, state := State.idle }, none)) :=
  ⟨(C3_reset_behavior d0 none).2.2 (by decide),
   (C3_reset_behavior dW (some "cancel boom")).2.1 (by decide)⟩

/-- Claim C2: `ExecuteTask` rejects (daemon and task slot unchanged)
whenever the state is not `idle`, and also when no executor is
registered; it accepts exactly when the state is `idle` and an executor
exists, recording the task and moving to `working`. -/
theorem C2_executeTask_single_flight (d : Daemon) (t : Task) :
    (d.state ≠ State.idle →
        d.executeTask t =
          (d, some ("daemon is not idle (current state: " ++ d.state.text ++ ")"))) ∧
    (d.state = State.idle → d.executor = none →
        d.executeTask t = (d, some "no executor available")) ∧
    ((d.executeTask t).2 = none ↔ (d.state = State.idle ∧ d.executor ≠ none)) ∧
    (d.state = State.idle → ∀ e, d.executor = some e →
        d.executeTask t =
          ({ d with currentTask := some t, state := State.working }, none)) := by
  cases hd : d.state <;> cases he : d.executor <;>
    simp [Daemon.executeTask, hd, he]

/-- Witness for C2: a working daemon rejects a second task with the busy
error and keeps the in-flight task; a daemon without an executor rejects;
an idle daemon with an executor accepts. -/
theorem C2_witness :
    (dW.executeTask task0 =
      (dW, some "daemon is not idle (current state: working)")) ∧
    (d0.executeTask task0 = (d0, some "no executor available")) ∧
    (dE.executeTask task0 =
      ({ dE with currentTask := some task0, state := State.working }, none)) :=
  ⟨(C2_executeTask_single_flight dW task0).1 (by decide),
   (C2_executeTask_single_flight d0 task0).2.1 (by decide) (by decide),
   (C2_executeTask_single_flight dE task0).2.2.2 (by decide) execExt2 (by decide)⟩

/-- Counterexample to claim C1: the claim says a second `Start()` without
an intervening `Stop()` fails, but on this concrete daemon the first
`Start` returns no error and the second `Start` returns no error
either — `Start` never moves the state off `idle`. -/
theorem C1_counterexample :
    ((d0.start).2 = none) ∧ (((d0.start).1.start).2 = none) := by
  decide

/-- Claim C1 (amended): `Start` errors exactly when the state is not
`idle`; `Start` leaves the state unchanged, so a second `Start` without a
`Stop` succeeds again, while after `AddPlugin` → `Start` → `Stop` a
further `Start` fails with `daemon already started` because the state is
`stopped`. -/
theorem C1_start_amended (d : Daemon) :
    ((d.start).2 = none ↔ d.state = State.idle) ∧
    ((d.start).1.state = d.state) ∧
    (d.state = State.idle → ((d.start).1.start).2 = none) ∧
    (d.state = State.idle →
      (((d.start).1.stop).1.start).2 = some "daemon already started") := by
  cases hd : d.state <;> simp [Daemon.start, Daemon.stop, hd]

/-- Witness for C1 (amended) on the concrete daemon `d0`: a second
`Start` succeeds, and `Start` after `Stop` fails. -/
theorem C1_witness :
    (((d0.start).1.start).2 = none) ∧
    ((((d0.start).1.stop).1.start).2 = some "daemon already started") :=
  ⟨(C1_start_amended d0).2.2.1 (by decide),
   (C1_start_amended d0).2.2.2 (by decide)⟩

/-- `findSome?` of a guarded map is `find?` followed by the map. -/
theorem findSome?_guarded {α β : Type} (l : List α) (p : α → Bool) (g : α → β) :
    (l.findSome? fun x => if p x then some (g x) else none) =
      (l.find? p).map g := by
  induction l with
  | nil => rfl
  | cons a t ih =>
    by_cases h : p a <;> simp [List.findSome?_cons, List.find?_cons, h, ih]

/-- Reassociation of the wrapped slow-consumer message. -/
theorem pubfail_msg (i : String) :
    "publish failed: " ++ ("timeout publishing to " ++ i ++ " (slow consumer)") =
      "publish failed: timeout publishing to " ++ i ++ " (slow consumer)" := by
  rw [← String.append_assoc, ← String.append_assoc]
  rfl

/-- `Publish` on an open broker, written through the first slow matched
subscriber. -/
theorem publish_eq_find (b : Broker) (msg : Message) (slow : String → Bool)
    (hopen : b.closed = false) (hne : b.matchingSubs msg.topic ≠ []) :
    Broker.publish slow b msg =
      ((b.matchingSubs msg.topic).find? fun s => slow s.id).map
        (fun s0 => "publish failed: timeout publishing to " ++ s0.id ++
          " (slow consumer)") := by
  have hie : (b.matchingSubs msg.topic).isEmpty = false := by
    simpa [List.isEmpty_iff] using hne
  have hfn : Broker.publishToSubscriber slow =
      (fun s : Subscription => if slow s.id then
        some ("timeout publishing to " ++ s.id ++ " (slow consumer)")
      else none) := rfl
  simp only [Broker.publish, hopen, Bool.false_eq_true, if_false, hie, hfn,
    findSome?_guarded]
  cases h : (b.matchingSubs msg.topic).find? fun s => slow s.id <;>
    simp [pubfail_msg]

/-- Claim C4: on an open broker with at least one matched subscriber,
`Publish` succeeds iff every delivery attempt succeeds; whenever some
matched subscriber times out, the call fails with the slow-consumer
error naming an offending (matched, slow) subscriber id — in this
embedding the first one in table order, mirroring the first error
returned by the delivery `errgroup`. -/
theorem C4_publish_all_or_nothing (b : Broker) (msg : Message)
    (slow : String → Bool) (hopen : b.closed = false)
    (hne : b.matchingSubs msg.topic ≠ []) :
    (Broker.publish slow b msg = none ↔
        ∀ s ∈ b.matchingSubs msg.topic, slow s.id = false) ∧
    (∀ s0, ((b.matchingSubs msg.topic).find? fun s => slow s.id) = some s0 →
        Broker.publish slow b msg =
          some ("publish failed: timeout publishing to " ++ s0.id ++
            " (slow consumer)") ∧
        s0 ∈ b.matchingSubs msg.topic ∧ slow s0.id = true) ∧
    ((∃ s ∈ b.matchingSubs msg.topic, slow s.id = true) →
        ∃ s0 ∈ b.matchingSubs msg.topic, slow s0.id = true ∧
          Broker.publish slow b msg =
            some ("publish failed: timeout publishing to " ++ s0.id ++
              " (slow consumer)")) := by
  have hpub := publish_eq_find b msg slow hopen hne
  refine ⟨?_, ?_, ?_⟩
  · rw [hpub]
    cases h : (b.matchingSubs msg.topic).find? fun s => slow s.id
    · simp only [Option.map, true_iff]
      intro s hs
      have := List.find?_eq_none.mp h s hs
      simpa using this
    · simp only [Option.map, reduceCtorEq, false_iff]
      intro hall
      have hp := List.find?_some h
      have hm := List.mem_of_find?_eq_some h
      rw [hall _ hm] at hp
      exact Bool.false_ne_true hp
  · intro s0 h
    refine ⟨by rw [hpub, h]; rfl, List.mem_of_find?_eq_some h,
      by simpa using List.find?_some h⟩
  · rintro ⟨s, hs, hslow⟩
    have hsome : ((b.matchingSubs msg.topic).find? fun s => slow s.id).isSome :=
      List.find?_isSome.mpr ⟨s, hs, hslow⟩
    obtain ⟨s0, h0⟩ := Option.isSome_iff_exists.mp hsome
    exact ⟨s0, List.mem_of_find?_eq_some h0,
      by simpa using List.find?_some h0, by rw [hpub, h0]; rfl⟩

/-- Witness for C4 on a broker whose only subscriber `s1` (buffer 0,
topic `chat`) is slow: the publish fails with the slow-consumer error
naming `s1`, and the success characterization holds. -/
theorem C4_witness :
    Broker.publish slow1 b0 msg0 =
      some ("publish failed: timeout publishing to " ++ s1sub.id ++
        " (slow consumer)") :=
  ((C4_publish_all_or_nothing b0 msg0 slow1 (by decide) (by decide)).2.1
    s1sub (by decide)).1

/-- The collected required-failure list is empty exactly when no required
check failed. -/
theorem requiredFailures_eq_nil_iff (reqs : List Requirement) :
    requiredFailures reqs = [] ↔
      ∀ r ∈ reqs, r.required = true → r.checkResult = none := by
  rw [requiredFailures, List.filterMap_eq_nil_iff]
  constructor
  · intro h r hr hreq
    have hfr := h r hr
    cases hc : r.checkResult with
    | none => rfl
    | some e => rw [hc, hreq] at hfr; simp at hfr
  · intro h r hr
    cases hc : r.checkResult with
    | none => rfl
    | some e =>
      cases hreq : r.required with
      | true => rw [h r hr hreq] at hc; cases hc
      | false => simp [hreq]

/-- Claim C6: `Check` succeeds exactly when zero required checks failed;
when some required check fails, the combined error joins every required
failure's `name: message` entry with `"; "` (so no fail-fast: each failed
required check contributes its entry); optional failures never produce an
error. -/
theorem C6_requirement_check (reqs : List Requirement) :
    (RequirementChecker.check reqs = none ↔
        ∀ r ∈ reqs, r.required = true → r.checkResult = none) ∧
    (requiredFailures reqs ≠ [] →
        RequirementChecker.check reqs =
          some ("requirement check(s) failed: " ++
            String.intercalate "; " (requiredFailures reqs))) ∧
    (∀ r ∈ reqs, ∀ e, r.required = true → r.checkResult = some e →
        (r.name ++ ": " ++ e) ∈ requiredFailures reqs) := by
  refine ⟨?_, ?_, ?_⟩
  · rw [← requiredFailures_eq_nil_iff]
    by_cases hr : reqs = []
    · subst hr; simp [RequirementChecker.check, requiredFailures]
    · have hie : reqs.isEmpty = false := by simpa [List.isEmpty_iff] using hr
      by_cases hf : requiredFailures reqs = []
      · simp [RequirementChecker.check, hie, hf]
      · have hfe : (requiredFailures reqs).isEmpty = false := by
          simpa [List.isEmpty_iff] using hf
        simp [RequirementChecker.check, hie, hfe, hf]
  · intro hf
    have hr : reqs ≠ [] := by
      intro h
      subst h
      exact hf rfl
    have hie : reqs.isEmpty = false := by simpa [List.isEmpty_iff] using hr
    have hfe : (requiredFailures reqs).isEmpty = false := by
      simpa [List.isEmpty_iff] using hf
    simp [RequirementChecker.check, hie, hfe]
  · intro r hr e hreq hres
    rw [requiredFailures]
    exact List.mem_filterMap.mpr ⟨r, hr, by simp [hres, hreq]⟩

/-- Witness for C6: on `reqs1` (required `a` and `c` fail, optional `b`
fails, required `d` passes) the combined error reports both required
failures and only those. -/
theorem C6_witness :
    requiredFailures reqs1 ≠ [] ∧
    RequirementChecker.check reqs1 =
      some ("requirement check(s) failed: " ++
        String.intercalate "; " (requiredFailures reqs1)) :=
  ⟨by decide, (C6_requirement_check reqs1).2.1 (by decide)⟩

/-- `find?` on the reversed list is the last match. -/
theorem find?_reverse_eq_getLast?_filter {α : Type} (l : List α)
    (p : α → Bool) :
    l.reverse.find? p = (l.filter p).getLast? := by
  calc l.reverse.find? p
      = (l.reverse.filter p).head? := (List.filter_head? p l.reverse).symm
    _ = ((l.filter p).reverse).head? := by rw [List.filter_reverse]
    _ = (l.filter p).getLast? := List.getLast?_eq_head?_reverse.symm

/-- A fold that overwrites on every match keeps the last match. -/
theorem foldl_lastWins {α : Type} (p : α → Bool) (e : Option α)
    (l : List α) :
    l.foldl (fun acc x => if p x then some x else acc) e =
      (l.reverse.find? p).elim e some := by
  induction l generalizing e with
  | nil => rfl
  | cons a t ih =>
    rw [List.foldl_cons, ih, List.reverse_cons, List.find?_append]
    cases h : t.reverse.find? p
    · cases hp : p a <;> simp [List.find?, Option.orElse, hp]
    · simp [Option.orElse]

/-- The executor scan keeps the last executor extension, or the prior
slot value if none occurs. -/
theorem scanExecutor_eq (e : Option Extension) (l : List Extension) :
    scanExecutor e l = ((l.filter isExecExt).getLast?).elim e some := by
  have h : scanExecutor e l = (l.reverse.find? isExecExt).elim e some :=
    foldl_lastWins isExecExt e l
  rw [h, find?_reverse_eq_getLast?_filter]

/-- Scanning a concatenation scans the parts in order. -/
theorem scanExecutor_append (e : Option Extension) (l1 l2 : List Extension) :
    scanExecutor e (l1 ++ l2) = scanExecutor (scanExecutor e l1) l2 :=
  List.foldl_append _ _ _ _

/-- The executor slot after `Start`'s loop is the scan of all started
plugins' extensions in discovery order. -/
theorem startPlugins_snd (e : Option Extension) (ps : List PluginM) :
    (startPlugins e ps).2 =
      scanExecutor e ((startedPlugins ps).flatMap (fun p => p.extensions)) := by
  induction ps generalizing e with
  | nil => rfl
  | cons p t ih =>
    by_cases hc : p.checkOk = true <;> by_cases hs : p.startOk = true <;>
      simp [startPlugins, hc, hs, startedPlugins, List.filter_cons, ih,
        scanExecutor_append]

/-- Claim C9: after a successful `Start`, the daemon's single executor
slot holds exactly the last executor extension discovered among started
plugins (every earlier discovery was overwritten), and the slot is
unchanged when none was discovered.  At most one executor is active by
construction of the slot. -/
theorem C9_executor_last_wins (d d' : Daemon) (h : d.start = (d', none)) :
    (discovered d.plugins = [] → d'.executor = d.executor) ∧
    (discovered d.plugins ≠ [] →
        d'.executor = (discovered d.plugins).getLast?) := by
  by_cases hd : d.state = State.idle
  · rw [Daemon.start] at h
    rw [show (d.state != State.idle) = false by simp [hd]] at h
    simp only [Bool.false_eq_true, if_false, Prod.mk.injEq] at h
    have hexec : d'.executor = (startPlugins d.executor d.plugins).2 := by
      rw [← h.1]
    rw [startPlugins_snd, scanExecutor_eq] at hexec
    have hdisc : ((startedPlugins d.plugins).flatMap
        (fun p => p.extensions)).filter isExecExt = discovered d.plugins := by
      rw [List.filter_flatMap]
      rfl
    rw [hdisc] at hexec
    constructor
    · intro hnil
      rw [hexec, hnil]
      rfl
    · intro hne
      cases hl : (discovered d.plugins).getLast? with
      | none =>
        rw [List.getLast?_eq_none_iff] at hl
        exact absurd hl hne
      | some x => rw [hexec, hl]; rfl
  · rw [Daemon.start] at h
    rw [show (d.state != State.idle) = true by simp [hd]] at h
    simp at h

/-- Claim C8: `Execute` on a registered command fails with the
mode-availability error — without invoking the handler — exactly when the
context carries a known mode, the command restricts modes, and the mode
is not among them; with an empty restriction, a matching mode, or no
known mode in the context, the handler runs synchronously on the args and
its result is returned. -/
theorem C8_execute_mode_filtering (reg : CommandRegistry) (ctx : Ctx)
    (name : String) (args : List String) (cmd : Command)
    (hfind : reg.find? (fun c => c.name == name) = some cmd) :
    (∀ m, ctx.mode = some m → cmd.modes ≠ [] → containsMode cmd.modes m = false →
        CommandRegistry.execute reg ctx name args =
          .error ("command /" ++ name ++ " not available in " ++ m ++ " mode")) ∧
    ((cmd.modes = [] ∨ (∃ m, ctx.mode = some m ∧ containsMode cmd.modes m = true) ∨
        ctx.mode = none) →
      CommandRegistry.execute reg ctx name args = cmd.handler ctx args) := by
  constructor
  · intro m hm hne hnc
    have hlen : (0 < cmd.modes.length) = true := by
      simp [List.length_pos_iff_ne_nil, hne]
    simp [CommandRegistry.execute, hfind, hm, hlen, hnc]
  · intro hcase
    rcases hcase with hnil | ⟨m, hm, hc⟩ | hnone
    · cases hmx : ctx.mode with
      | none => simp [CommandRegistry.execute, hfind, hmx]
      | some m => simp [CommandRegistry.execute, hfind, hmx, hnil]
    · simp [CommandRegistry.execute, hfind, hm, hc]
    · simp [CommandRegistry.execute, hfind, hnone]

/-- Witness for C8: `solo` (modes `{interactive}`) fails under mode
`daemon` and runs its handler under mode `interactive`. -/
theorem C8_witness :
    (CommandRegistry.execute reg1 ctxD "solo" ["x"] =
      .error ("command /" ++ "solo" ++ " not available in " ++ "daemon" ++
        " mode")) ∧
    (CommandRegistry.execute reg1 ctxI "solo" ["x"] =
      soloCmd.handler ctxI ["x"]) :=
  ⟨(C8_execute_mode_filtering reg1 ctxD "solo" ["x"] soloCmd rfl).1
      "daemon" rfl (by decide) (by decide),
   (C8_execute_mode_filtering reg1 ctxI "solo" ["x"] soloCmd rfl).2
      (Or.inr (Or.inl ⟨"interactive", rfl, by decide⟩))⟩

/-- Witness for C9: starting `dPre` (one plugin exposing `execExt` then
`execExt2`) leaves the last-discovered executor in the slot. -/
theorem C9_witness :
    dE.executor = (discovered dPre.plugins).getLast? :=
  (C9_executor_last_wins dPre dE (by decide)).2 (by decide)

theorem goIsSpace_slash : goIsSpace '/' = false := by decide

theorem words_ne_nil (l : List Char) :
    ∀ (acc : List Char), ∀ w ∈ fieldsAux l acc, w ≠ [] := by
  induction l with
  | nil =>
    intro acc w hw
    by_cases h : acc = []
    · simp [fieldsAux, h] at hw
    · simp only [fieldsAux, h, if_false, List.mem_singleton] at hw
      subst hw
      simpa using h
  | cons c cs ih =>
    intro acc w hw
    by_cases hs : goIsSpace c
    · by_cases h : acc = []
      · rw [fieldsAux] at hw
        simp only [hs, if_true, h, if_true] at hw
        exact ih [] w hw
      · rw [fieldsAux] at hw
        simp only [hs, if_true, h, if_false, List.mem_cons] at hw
        rcases hw with rfl | hw
        · simpa using h
        · exact ih [] w hw
    · rw [fieldsAux] at hw
      simp only [hs, if_false] at hw
      exact ih (c :: acc) w hw

theorem fieldsAux_allSpace (b : List Char) :
    ∀ (acc : List Char), (∀ c ∈ b, goIsSpace c = true) →
      fieldsAux b acc = fieldsAux [] acc := by
  induction b with
  | nil => intro acc _; rfl
  | cons c cs ih =>
    intro acc h
    have hc : goIsSpace c = true := h c (by simp)
    have hcs : ∀ x ∈ cs, goIsSpace x = true := fun x hx => h x (by simp [hx])
    conv_lhs => rw [fieldsAux]
    rw [if_pos hc, ih [] hcs]
    by_cases ha : acc = [] <;> simp [fieldsAux, ha]

theorem fieldsAux_append_spaces (a b : List Char)
    (hb : ∀ c ∈ b, goIsSpace c = true) :
    ∀ (acc : List Char), fieldsAux (a ++ b) acc = fieldsAux a acc := by
  induction a with
  | nil => intro acc; rw [List.nil_append, fieldsAux_allSpace b acc hb]
  | cons c cs ih =>
    intro acc
    rw [List.cons_append, fieldsAux]
    conv_rhs => rw [fieldsAux]
    by_cases hs : goIsSpace c
    · by_cases ha : acc = [] <;> simp [hs, ha, ih]
    · simp [hs, ih]

theorem goFields_trimLeft (l : List Char) :
    goFields (trimLeft l) = goFields l := by
  induction l with
  | nil => rfl
  | cons c cs ih =>
    by_cases hs : goIsSpace c
    · have h1 : trimLeft (c :: cs) = trimLeft cs := by
        rw [trimLeft, trimLeft, List.dropWhile_cons, if_pos hs]
      have h2 : goFields (c :: cs) = goFields cs := by
        rw [goFields, goFields, fieldsAux]
        simp [hs]
      rw [h1, ih, h2]
    · have h1 : trimLeft (c :: cs) = c :: cs := by
        rw [trimLeft, List.dropWhile_cons, if_neg hs]
      rw [h1]

theorem goFields_trimRight (l : List Char) :
    goFields (trimRight l) = goFields l := by
  have hdecomp : l = trimRight l ++ (l.reverse.takeWhile goIsSpace).reverse := by
    calc l = l.reverse.reverse := (List.reverse_reverse l).symm
      _ = (l.reverse.takeWhile goIsSpace ++ l.reverse.dropWhile goIsSpace).reverse := by
            rw [List.takeWhile_append_dropWhile goIsSpace l.reverse]
      _ = trimRight l ++ (l.reverse.takeWhile goIsSpace).reverse := by
            rw [List.reverse_append]; rfl
  have hsp : ∀ c ∈ (l.reverse.takeWhile goIsSpace).reverse, goIsSpace c = true := by
    intro c hc
    rw [List.mem_reverse] at hc
    exact List.mem_takeWhile_imp hc
  conv_rhs => rw [hdecomp]
  rw [goFields, goFields, fieldsAux_append_spaces _ _ hsp]

theorem goFields_goTrimSpace (l : List Char) :
    goFields (goTrimSpace l) = goFields l := by
  rw [goTrimSpace, goFields_trimRight, goFields_trimLeft]

theorem trimRight_eq_nil_iff (l : List Char) :
    trimRight l = [] ↔ ∀ c ∈ l, goIsSpace c = true := by
  rw [trimRight, List.reverse_eq_nil_iff, List.dropWhile_eq_nil_iff]
  constructor
  · intro h c hc
    exact h c (List.mem_reverse.mpr hc)
  · intro h c hc
    exact h c (List.mem_reverse.mp hc)

theorem trimLeft_allSpace_iff (l : List Char) :
    (∀ c ∈ trimLeft l, goIsSpace c = true) ↔ (∀ c ∈ l, goIsSpace c = true) := by
  constructor
  · intro h c hc
    rw [← List.takeWhile_append_dropWhile goIsSpace l] at hc
    rcases List.mem_append.mp hc with h1 | h2
    · exact List.mem_takeWhile_imp h1
    · exact h c h2
  · intro h c hc
    exact h c ((List.dropWhile_sublist goIsSpace).subset hc)

theorem goTrimSpace_eq_nil_iff (l : List Char) :
    goTrimSpace l = [] ↔ ∀ c ∈ l, goIsSpace c = true := by
  rw [goTrimSpace, trimRight_eq_nil_iff, trimLeft_allSpace_iff]

theorem trimRight_slash_cons (l : List Char)
    (h : ¬ ∀ c ∈ l, goIsSpace c = true) :
    trimRight ('/' :: l) = '/' :: trimRight l := by
  rw [trimRight, List.reverse_cons, List.dropWhile_append]
  have h2 : l.reverse.dropWhile goIsSpace ≠ [] := fun hnil =>
    h (fun c hc =>
      (List.dropWhile_eq_nil_iff.mp hnil) c (List.mem_reverse.mpr hc))
  rw [if_neg (by simpa [List.isEmpty_iff] using h2)]
  rw [List.reverse_append]
  rfl

theorem goTrimSpace_slash_cons (l : List Char) (h : goTrimSpace l ≠ []) :
    goTrimSpace ('/' :: l) = '/' :: trimRight l := by
  have hns : ¬ ∀ c ∈ l, goIsSpace c = true := fun hall =>
    h ((goTrimSpace_eq_nil_iff l).mpr hall)
  have h1 : trimLeft ('/' :: l) = '/' :: l := by
    rw [trimLeft, List.dropWhile_cons]
    simp [goIsSpace_slash]
  rw [goTrimSpace, h1, trimRight_slash_cons l hns]

theorem stripSlash_of_head_ne (l : List Char) (h : l.head? ≠ some '/') :
    stripSlash l = l := by
  cases l with
  | nil => rfl
  | cons c rest =>
    rw [stripSlash]
    rw [if_neg]
    intro hc
    subst hc
    exact h rfl

/-- `routeList` depends only on the split fields of the slash-stripped
input, once the input is non-empty. -/
theorem routeList_eq_of_fields_eq (reg : CommandRegistry) (ctx : Ctx)
    (inp1 inp2 : List Char) (h1 : inp1 ≠ []) (h2 : inp2 ≠ [])
    (hf : goFields (stripSlash inp1) = goFields (stripSlash inp2)) :
    Router.routeList reg ctx inp1 = Router.routeList reg ctx inp2 := by
  rw [Router.routeList, Router.routeList, if_neg h1, if_neg h2,
    Router.parseCommand, Router.parseCommand, hf]

/-- Claim C7: `Route` errors on input that is empty after trimming; a
leading command marker `/` does not change the result; the remaining
text is split on whitespace into a command name and argument tokens and
forwarded to the registry; an unknown name yields
`unknown command: <name>`. -/
theorem C7_route_parsing (reg : CommandRegistry) (ctx : Ctx)
    (input : String) :
    (goTrimSpace input.data = [] →
        Router.route reg ctx input = .error "empty command") ∧
    (goTrimSpace input.data ≠ [] →
        (goTrimSpace input.data).head? ≠ some '/' →
        Router.route reg ctx ("/" ++ input) = Router.route reg ctx input) ∧
    (∀ n as, goFields (stripSlash (goTrimSpace input.data)) = n :: as →
        Router.route reg ctx input =
          CommandRegistry.execute reg ctx (String.mk n) (as.map String.mk)) ∧
    (∀ name args, reg.find? (fun c => c.name == name) = none →
        CommandRegistry.execute reg ctx name args =
          .error ("unknown command: " ++ name)) := by
  refine ⟨?_, ?_, ?_, ?_⟩
  · intro h
    rw [Router.route, h]
    rfl
  · intro h1 h2
    have hdata : ("/" ++ input).data = '/' :: input.data := by
      cases input
      rfl
    rw [Router.route, Router.route, hdata,
      goTrimSpace_slash_cons input.data h1]
    have hfR : goFields (stripSlash (goTrimSpace input.data)) =
        goFields input.data := by
      rw [stripSlash_of_head_ne _ h2, goFields_goTrimSpace]
    have hfL : goFields (stripSlash ('/' :: trimRight input.data)) =
        goFields input.data := by
      rw [show stripSlash ('/' :: trimRight input.data) =
          trimRight input.data by simp [stripSlash]]
      exact goFields_trimRight input.data
    exact routeList_eq_of_fields_eq reg ctx _ _ (by simp) h1
      (hfL.trans hfR.symm)
  · intro n as h
    have hne : goTrimSpace input.data ≠ [] := by
      intro hnil
      rw [hnil] at h
      simp [stripSlash, goFields, fieldsAux] at h
    have hn : n ≠ [] :=
      words_ne_nil _ [] n (h ▸ List.mem_cons_self n as)
    rw [Router.route, Router.routeList, if_neg hne]
    simp only [Router.parseCommand, h]
    rw [if_neg hn]
  · intro name args hf
    simp only [CommandRegistry.execute, hf]

/-- Witness for C7: whitespace-only input errors; `/status a` routes the
same as `status a`; `status a b` splits and dispatches; an unknown name
errors. -/
theorem C7_witness :
    (Router.route reg1 ctxD "   " = .error "empty command") ∧
    (Router.route reg1 ctxD ("/" ++ "status a") =
      Router.route reg1 ctxD "status a") ∧
    (Router.route reg1 ctxD "status a b" =
      CommandRegistry.execute reg1 ctxD (String.mk "status".data)
        (["a".data, "b".data].map String.mk)) ∧
    (CommandRegistry.execute reg1 ctxD "nope" [] =
      .error ("unknown command: " ++ "nope")) :=
  ⟨(C7_route_parsing reg1 ctxD "   ").1 (by decide),
   (C7_route_parsing reg1 ctxD "status a").2.1 (by decide) (by decide),
   (C7_route_parsing reg1 ctxD "status a b").2.2.1 "status".data
      ["a".data, "b".data] (by decide),
   (C7_route_parsing reg1 ctxD "status a b").2.2.2 "nope" [] rfl⟩

end Bicycle
